import Mathlib

/-!
Verification model of the Sahaty ("صحتي") scanner app (`src/index.tsx`).

The app is a single React component.  We shallowly embed its state and the
handlers relevant to the specification: `analyzeProduct`, `handleFileUpload`,
`startCamera` / `stopCamera` / `capturePhoto`, `deleteHistoryItem`, the
history load/persist effects, and history-entry selection.

Machine model choices:
* JavaScript `JSON.parse` is embedded as an executable recursive-descent
  parser `parseJson` over the JSON grammar (objects, arrays, strings with
  escapes, numbers with the leading-zero/fraction/exponent rules, literals,
  and the four whitespace characters), returning `none` exactly when
  `JSON.parse` throws.  Numbers are represented exactly as rationals.
* React `useState` state is a record `AppState`; each handler is a function
  from the old state (plus its inputs) to the new state.
* Asynchronous completions (service response, file decode) are passed as
  explicit arguments to the handler embeddings.
-/

/-- A JavaScript value produced by `JSON.parse`.  Object fields are an
association list with unique keys (duplicate keys in the source text are
collapsed with last-value-wins, as `JSON.parse` does). -/
inductive Json where
  | null : Json
  | bool (b : Bool) : Json
  | num (q : Rat) : Json
  | str (s : String) : Json
  | arr (elems : List Json) : Json
  | obj (fields : List (String × Json)) : Json
deriving Repr

/-- The opening curly brace character. -/
def lbrace : Char := Char.ofNat 123

/-- The closing curly brace character. -/
def rbrace : Char := Char.ofNat 125

/-- JSON insignificant whitespace: space, tab, line feed, carriage return. -/
def isJsonWs (c : Char) : Bool :=
  c = ' ' || c = Char.ofNat 9 || c = Char.ofNat 10 || c = Char.ofNat 13

/-- Skip JSON whitespace. -/
def skipWs : List Char → List Char
  | [] => []
  | c :: cs => if isJsonWs c then skipWs cs else c :: cs

/-- Hexadecimal digit test (for `\u` escapes). -/
def isHexDigit (c : Char) : Bool :=
  c.isDigit || ('a' ≤ c && c ≤ 'f') || ('A' ≤ c && c ≤ 'F')

/-- Value of a hexadecimal digit. -/
def hexVal (c : Char) : Nat :=
  if c.isDigit then c.toNat - 48
  else if 'a' ≤ c && c ≤ 'f' then c.toNat - 87
  else c.toNat - 55

/-- Parse the body of a JSON string (the opening quote already consumed),
returning the decoded characters and the remaining input.  Control
characters below U+0020 are rejected, escapes are decoded, `\u` takes four
hex digits; `none` exactly when `JSON.parse` would throw inside a string. -/
def parseStringBody : List Char → Option (List Char × List Char)
  | [] => none
  | '"' :: rest => some ([], rest)
  | '\\' :: '"' :: rest => (parseStringBody rest).map (fun p => ('"' :: p.1, p.2))
  | '\\' :: '\\' :: rest => (parseStringBody rest).map (fun p => ('\\' :: p.1, p.2))
  | '\\' :: '/' :: rest => (parseStringBody rest).map (fun p => ('/' :: p.1, p.2))
  | '\\' :: 'b' :: rest => (parseStringBody rest).map (fun p => (Char.ofNat 8 :: p.1, p.2))
  | '\\' :: 'f' :: rest => (parseStringBody rest).map (fun p => (Char.ofNat 12 :: p.1, p.2))
  | '\\' :: 'n' :: rest => (parseStringBody rest).map (fun p => (Char.ofNat 10 :: p.1, p.2))
  | '\\' :: 'r' :: rest => (parseStringBody rest).map (fun p => (Char.ofNat 13 :: p.1, p.2))
  | '\\' :: 't' :: rest => (parseStringBody rest).map (fun p => (Char.ofNat 9 :: p.1, p.2))
  | '\\' :: 'u' :: h1 :: h2 :: h3 :: h4 :: rest =>
      if isHexDigit h1 && isHexDigit h2 && isHexDigit h3 && isHexDigit h4 then
        (parseStringBody rest).map (fun p =>
          (Char.ofNat (((hexVal h1 * 16 + hexVal h2) * 16 + hexVal h3) * 16 + hexVal h4) :: p.1, p.2))
      else none
  | '\\' :: _ => none
  | c :: rest =>
      if c.toNat < 32 then none
      else (parseStringBody rest).map (fun p => (c :: p.1, p.2))

/-- Take a maximal run of decimal digits. -/
def takeDigits : List Char → List Char × List Char
  | [] => ([], [])
  | c :: cs =>
      if c.isDigit then
        let p := takeDigits cs
        (c :: p.1, p.2)
      else ([], c :: cs)

/-- Decimal value of a digit run. -/
def digitsToNat (l : List Char) : Nat :=
  l.foldl (fun a c => a * 10 + (c.toNat - 48)) 0

/-- Integer part of a JSON number: `0`, or a nonzero digit followed by more
digits.  A leading `0` is not followed by further digits (JSON forbids
leading zeros; a stray digit after it makes the enclosing parse fail). -/
def parseIntPart : List Char → Option (Nat × List Char)
  | [] => none
  | c :: cs =>
      if c = '0' then some (0, cs)
      else if c.isDigit then
        let p := takeDigits cs
        some (digitsToNat (c :: p.1), p.2)
      else none

/-- Optional fraction part; a `.` must be followed by at least one digit. -/
def parseFracPart : List Char → Option (List Char × List Char)
  | [] => some ([], [])
  | c :: cs =>
      if c = '.' then
        let p := takeDigits cs
        if p.1 = [] then none else some (p.1, p.2)
      else some ([], c :: cs)

/-- Exponent digits after `e`/`E` and an optional sign. -/
def parseExpDigits (neg : Bool) (l : List Char) : Option (Bool × Nat × List Char) :=
  let p := takeDigits l
  if p.1 = [] then none else some (neg, digitsToNat p.1, p.2)

/-- Optional exponent part. -/
def parseExpPart : List Char → Option (Bool × Nat × List Char)
  | [] => some (false, 0, [])
  | c :: cs =>
      if c = 'e' || c = 'E' then
        match cs with
        | [] => none
        | d :: ds =>
            if d = '+' then parseExpDigits false ds
            else if d = '-' then parseExpDigits true ds
            else parseExpDigits false (d :: ds)
      else some (false, 0, c :: cs)

/-- Exact rational value of a JSON number from its parsed pieces. -/
def mkNum (neg : Bool) (ip : Nat) (fds : List Char) (eneg : Bool) (ev : Nat) : Rat :=
  let m : Nat := ip * 10 ^ fds.length + digitsToNat fds
  let base : Rat := (m : Rat) / ((10 : Rat) ^ fds.length)
  let scaled : Rat := if eneg then base / ((10 : Rat) ^ ev) else base * ((10 : Rat) ^ ev)
  if neg then -scaled else scaled

/-- Parse a JSON number token. -/
def parseNumber : List Char → Option (Rat × List Char)
  | [] => none
  | c :: cs =>
      let p0 := if c = '-' then (true, cs) else (false, c :: cs)
      match parseIntPart p0.2 with
      | none => none
      | some (ip, l2) =>
          match parseFracPart l2 with
          | none => none
          | some (fds, l3) =>
              match parseExpPart l3 with
              | none => none
              | some (eneg, ev, l4) => some (mkNum p0.1 ip fds eneg ev, l4)

/-- Set a field of a JavaScript object: overwrite in place if the key
exists, otherwise append (JavaScript property-assignment semantics). -/
def setField : List (String × Json) → String → Json → List (String × Json)
  | [], k, v => [(k, v)]
  | (k0, v0) :: fs, k, v =>
      if k0 = k then (k0, v) :: fs else (k0, v0) :: setField fs k v

mutual

/-- Parse one JSON value (fuel-indexed; `parseJson` supplies ample fuel). -/
def parseValue : Nat → List Char → Option (Json × List Char)
  | 0, _ => none
  | Nat.succ fuel, l =>
      match skipWs l with
      | [] => none
      | c :: rest =>
          if c = lbrace then
            match skipWs rest with
            | [] => none
            | d :: rest' =>
                if d = rbrace then some (Json.obj [], rest')
                else parseObjItems fuel (d :: rest') []
          else if c = '[' then
            match skipWs rest with
            | [] => none
            | d :: rest' =>
                if d = ']' then some (Json.arr [], rest')
                else parseArrItems fuel (d :: rest') []
          else if c = '"' then
            (parseStringBody rest).map (fun p => (Json.str (String.mk p.1), p.2))
          else if c = 'n' then
            match rest with
            | 'u' :: 'l' :: 'l' :: r => some (Json.null, r)
            | _ => none
          else if c = 't' then
            match rest with
            | 'r' :: 'u' :: 'e' :: r => some (Json.bool true, r)
            | _ => none
          else if c = 'f' then
            match rest with
            | 'a' :: 'l' :: 's' :: 'e' :: r => some (Json.bool false, r)
            | _ => none
          else if c = '-' || c.isDigit then
            (parseNumber (c :: rest)).map (fun p => (Json.num p.1, p.2))
          else none

/-- Parse the elements of a non-empty JSON array (input positioned at the
first element, after whitespace). -/
def parseArrItems : Nat → List Char → List Json → Option (Json × List Char)
  | 0, _, _ => none
  | Nat.succ fuel, l, acc =>
      match parseValue fuel l with
      | none => none
      | some (v, rest) =>
          match skipWs rest with
          | [] => none
          | c :: rest' =>
              if c = ',' then parseArrItems fuel rest' (acc ++ [v])
              else if c = ']' then some (Json.arr (acc ++ [v]), rest')
              else none

/-- Parse the members of a non-empty JSON object (input positioned at the
first key's opening quote, after whitespace). -/
def parseObjItems : Nat → List Char → List (String × Json) → Option (Json × List Char)
  | 0, _, _ => none
  | Nat.succ fuel, l, acc =>
      match l with
      | [] => none
      | c :: rest =>
          if c = '"' then
            match parseStringBody rest with
            | none => none
            | some (keyChars, rest1) =>
                match skipWs rest1 with
                | [] => none
                | d :: rest2 =>
                    if d = ':' then
                      match parseValue fuel rest2 with
                      | none => none
                      | some (v, rest3) =>
                          let acc' := setField acc (String.mk keyChars) v
                          match skipWs rest3 with
                          | [] => none
                          | e :: rest4 =>
                              if e = ',' then
                                match skipWs rest4 with
                                | [] => none
                                | f :: rest5 => parseObjItems fuel (f :: rest5) acc'
                              else if e = rbrace then some (Json.obj acc', rest4)
                              else none
                    else none
          else none

end

/-- Embedding of JavaScript `JSON.parse`: `some` of the parsed value on
valid JSON text (allowing surrounding whitespace, rejecting trailing
input), `none` when `JSON.parse` throws. -/
def parseJson (s : String) : Option Json :=
  let cs := s.toList
  match parseValue (2 * cs.length + 2) cs with
  | none => none
  | some (j, rest) => if skipWs rest = [] then some j else none

/-- First-match lookup in an object's field list (JavaScript property read;
keys are unique by construction). -/
def lookupField : List (String × Json) → String → Option Json
  | [], _ => none
  | (k0, v) :: fs, k => if k0 = k then some v else lookupField fs k

/-- Read a property of a parsed value (`none` on non-objects). -/
def getField (j : Json) (k : String) : Option Json :=
  match j with
  | Json.obj fs => lookupField fs k
  | _ => none

/-- Own enumerable properties of a value, as used by JavaScript object
spread `\x7b...data\x7d`: an object's fields; index-keyed elements for
arrays and strings; nothing for primitives. -/
def fieldsOf : Json → List (String × Json)
  | Json.obj fs => fs
  | Json.arr es => (es.enum).map (fun p => (toString p.1, p.2))
  | Json.str s => (s.toList.enum).map (fun p => (toString p.1, Json.str (String.mk [p.2])))
  | _ => []

-- ---------------------------------------------------------------------------
-- Application state (the `useState` fields of the `App` component, plus two
-- ghost observation counters: `analyzerCalls` counts invocations of
-- `analyzeProduct`, `consoleErrors` counts `console.error` calls).
-- ---------------------------------------------------------------------------

/-- The `useState` state of the `App` component.  `result` and the `history`
entries are raw parsed values: the source casts `JSON.parse` output to
`AnalysisResult` without validation. -/
structure AppState where
  image : Option String
  analyzing : Bool
  result : Option Json
  error : Option String
  showCamera : Bool
  history : List Json
  analyzerCalls : Nat
  consoleErrors : Nat
deriving Repr

/-- The initial `useState` values. -/
def initialState : AppState :=
  { image := none, analyzing := false, result := none, error := none,
    showCamera := false, history := [], analyzerCalls := 0, consoleErrors := 0 }

/-- The fixed localized analysis-failure message (line 125 of the source). -/
def analysisErrorMsg : String :=
  "حدث خطأ أثناء تحليل الصورة. يرجى التأكد من وضوح الملصق الغذائي."

/-- The fixed localized oversized-file message (line 135 of the source). -/
def fileSizeErrorMsg : String :=
  "حجم الصورة يجب أن يكون أقل من 5 ميجابايت"

/-- `[resultWithMeta, ...prev].slice(0, 10)` — prepend and keep the first
ten entries (line 122 of the source). -/
def appendHistory {α : Type} (r : α) (prev : List α) : List α :=
  (r :: prev).take 10

/-- `\x7b ...data, timestamp: Date.now() \x7d` — spread the parsed value and
overwrite `timestamp` with the local clock (line 120 of the source). -/
def resultWithMeta (j : Json) (now : Nat) : Json :=
  Json.obj (setField (fieldsOf j) "timestamp" (Json.num (now : Rat)))

/-- `analyzeProduct` (lines 73-129).  `response` is the outcome of the
awaited remote call: `Except.error` for any exception from the service,
`Except.ok text?` for a response whose `.text` is `text?` (`none` when the
field is `undefined`).  `now` is `Date.now()` at completion.  The body sets
`analyzing`/clears `error`, substitutes `'\x7b\x7d'` for a falsy response
text, parses it, stamps the local timestamp, stores and prepends the
result; any thrown exception (network or parse) lands in the `catch` that
logs and sets the fixed message; `finally` clears `analyzing`. -/
def analyzeProduct (s : AppState) (response : Except Unit (Option String)) (now : Nat) :
    AppState :=
  let s1 := { s with analyzing := true, error := none, analyzerCalls := s.analyzerCalls + 1 }
  match response with
  | Except.error _ =>
      { s1 with error := some analysisErrorMsg, consoleErrors := s1.consoleErrors + 1,
                analyzing := false }
  | Except.ok text? =>
      let raw := match text? with
        | none => "\x7b\x7d"
        | some t => if t = "" then "\x7b\x7d" else t
      match parseJson raw with
      | none =>
          { s1 with error := some analysisErrorMsg, consoleErrors := s1.consoleErrors + 1,
                    analyzing := false }
      | some j =>
          let rm := resultWithMeta j now
          { s1 with result := some rm, history := appendHistory rm s1.history,
                    analyzing := false }

/-- A file offered to `handleFileUpload`: its byte size and the data URL
that `FileReader.readAsDataURL` would produce for it. -/
structure UploadFile where
  size : Nat
  dataUrl : String
deriving Repr, DecidableEq

/-- `handleFileUpload` (lines 131-145), up to the asynchronous read.  The
returned `Bool` records whether a `FileReader` decode was started.  A file
over `5 * 1024 * 1024` bytes is rejected with the fixed message before any
decode; nothing else in the state changes on that path. -/
def handleFileUpload (s : AppState) (file : Option UploadFile) : AppState × Bool :=
  match file with
  | none => (s, false)
  | some f =>
      if f.size > 5 * 1024 * 1024 then ({ s with error := some fileSizeErrorMsg }, false)
      else (s, true)

/-- The `reader.onloadend` continuation (lines 139-142): store the data URL
as the current image and clear the displayed result. -/
def fileReadComplete (s : AppState) (dataUrl : String) : AppState :=
  { s with image := some dataUrl, result := none }

/-- `deleteHistoryItem`'s filter: JavaScript
`prev.filter((_, i) => i !== index)`, with `i` the running element index.
The index argument is an `Int` so that out-of-range and negative values
behave as in the source (no element matches, everything is kept). -/
def deleteAux {α : Type} (index : Int) : List α → Nat → List α
  | [], _ => []
  | a :: as, i =>
      if (i : Int) = index then deleteAux index as (i + 1)
      else a :: deleteAux index as (i + 1)

/-- `deleteHistoryItem` (lines 183-185). -/
def deleteHistoryItem {α : Type} (index : Int) (prev : List α) : List α :=
  deleteAux index prev 0

/-- Clicking a history card (line 413): display that entry as the current
result.  The click handler exists only for rendered entries, i.e. indices
below the history length; `get?` returns `none` otherwise and no handler
runs. -/
def selectHistoryItem (s : AppState) (idx : Nat) : AppState :=
  match s.history.get? idx with
  | some item => { s with result := some item }
  | none => s

/-- The history snapshot restore (lines 56-65): the persisted text is
`JSON.parse`d and stored via `setHistory` with an unchecked cast to
`AnalysisResult[]`.  An array restores verbatim; in JavaScript a non-array
parse would be stored as-is (a type confusion this typed model represents
by a singleton list holding the raw value — no claim depends on that
branch). -/
def jsonToHistory : Json → List Json
  | Json.arr l => l
  | j => [j]

/-- The mount effect (lines 56-65): `saved` is
`localStorage.getItem('sehati_history')` (`none` when the key is absent).
A falsy value (absent key or empty string) is skipped; a parse failure is
caught, logged with `console.error`, and leaves the state untouched.  The
returned flag records whether the failure was logged. -/
def loadHistory : Option String → List Json × Bool
  | none => ([], false)
  | some s =>
      if s = "" then ([], false)
      else
        match parseJson s with
        | none => ([], true)
        | some j => (jsonToHistory j, false)

/-- The component state right after mount: the initial `useState` values
with the mount effect applied (history restored, a failed parse logged). -/
def mountApp (saved : Option String) : AppState :=
  let p := loadHistory saved
  { initialState with history := p.1,
                      consoleErrors := initialState.consoleErrors + (if p.2 then 1 else 0) }

-- ---------------------------------------------------------------------------
-- Camera resource model (lines 147-181).  The stream bound to the video
-- element is `some` of its tracks' stopped-flags; `bound` records whether
-- `videoRef.current.srcObject` is set to it.  `mounted` tracks whether the
-- component is still mounted.
-- ---------------------------------------------------------------------------

/-- Camera lifecycle state: the acquired stream's tracks (`true` means the
track has been stopped), whether it is bound as the video element's
`srcObject`, the `showCamera` flag, and whether the component is mounted. -/
structure CamState where
  stream : Option (List Bool)
  bound : Bool
  showCamera : Bool
  mounted : Bool
deriving Repr, DecidableEq

/-- Camera state before any event: no stream, component mounted. -/
def camInit : CamState :=
  { stream := none, bound := false, showCamera := false, mounted := true }

/-- The externally visible camera events: a successful `getUserMedia`
(recording whether the video element existed to receive `srcObject`, and
the stream's track count), a rejected `getUserMedia`, the cancel button,
the capture button, and React unmounting the component. -/
inductive CamEvent where
  | startOk (videoRefPresent : Bool) (numTracks : Nat)
  | startErr
  | cancel
  | capture
  | teardown
deriving Repr, DecidableEq

/-- `stopCamera` (lines 175-181): if the video element holds a stream, stop
every track of it; in all cases leave camera mode. -/
def stopCameraFn (s : CamState) : CamState :=
  let s' :=
    if s.bound then
      match s.stream with
      | some ts => { s with stream := some (ts.map (fun _ => true)) }
      | none => s
    else s
  { s' with showCamera := false }

/-- One camera event.  `startOk` is `startCamera` (lines 147-158) with a
granted stream: `showCamera` was already set, the stream is acquired, and
`srcObject` is assigned only when the video element exists.  `startErr` is
the rejection branch.  `cancel` and `capture` both run `stopCamera`
(`capturePhoto`, lines 160-173, calls it after drawing the frame).
`teardown` unmounts the component: the source registers no unmount cleanup
anywhere, so no code runs and the stream is untouched. -/
def camStep (s : CamState) : CamEvent → CamState
  | CamEvent.startOk p n =>
      { s with showCamera := true, stream := some (List.replicate n false), bound := p }
  | CamEvent.startErr => { s with showCamera := false }
  | CamEvent.cancel => stopCameraFn s
  | CamEvent.capture => stopCameraFn s
  | CamEvent.teardown => { s with mounted := false }

/-- Run a sequence of camera events from the initial state. -/
def camRun (evs : List CamEvent) : CamState :=
  evs.foldl camStep camInit

-- ---------------------------------------------------------------------------
-- Helper lemmas
-- ---------------------------------------------------------------------------

/-- Reading back a field just set yields the new value. -/
theorem lookupField_setField (fs : List (String × Json)) (k : String) (v : Json) :
    lookupField (setField fs k v) k = some v := by
  induction fs with
  | nil => simp [setField, lookupField]
  | cons p fs ih =>
      obtain ⟨k0, v0⟩ := p
      by_cases h : k0 = k
      · simp [setField, lookupField, h]
      · simp [setField, lookupField, h, ih]

/-- Length of a history append. -/
theorem appendHistory_length {α : Type} (r : α) (l : List α) :
    (appendHistory r l).length = min 10 (l.length + 1) := by
  simp [appendHistory]
  omega

/-- `deleteAux` keeps everything once the running index has passed the
target index. -/
theorem deleteAux_lt {α : Type} (l : List α) :
    ∀ (k : Nat) (index : Int), index < (k : Int) → deleteAux index l k = l := by
  induction l with
  | nil => intro k index _; rfl
  | cons a as ih =>
      intro k index h
      have hne : (k : Int) ≠ index := by omega
      simp only [deleteAux, if_neg hne]
      rw [ih (k + 1) index (by push_cast; omega)]

/-- `deleteAux` starting at running index `k` with target `k + d` removes
exactly the element `d` positions further on. -/
theorem deleteAux_add {α : Type} (l : List α) :
    ∀ (k d : Nat), deleteAux ((k : Int) + (d : Int)) l k = l.take d ++ l.drop (d + 1) := by
  induction l with
  | nil => intro k d; simp [deleteAux]
  | cons a as ih =>
      intro k d
      cases d with
      | zero =>
          simp only [deleteAux]
          rw [if_pos (by push_cast; ring)]
          rw [deleteAux_lt as (k + 1) _ (by push_cast; omega)]
          simp
      | succ d' =>
          simp only [deleteAux]
          rw [if_neg (by push_cast; omega)]
          have hcast : ((k : Int) + ((d' + 1 : Nat) : Int)) = (((k + 1 : Nat)) : Int) + (d' : Int) := by
            push_cast; ring
          rw [hcast, ih (k + 1) d']
          simp [List.take_succ_cons, List.drop_succ_cons]

/-- `deleteHistoryItem` at a natural index is take-and-drop around it. -/
theorem deleteHistoryItem_eq {α : Type} (l : List α) (i : Nat) :
    deleteHistoryItem (i : Int) l = l.take i ++ l.drop (i + 1) := by
  have h := deleteAux_add l 0 i
  simpa [deleteHistoryItem] using h

-- ---------------------------------------------------------------------------
-- Claims
-- ---------------------------------------------------------------------------

/-- C1 (counterexample): the claim includes an empty response text among
the failures, but `analyzeProduct` replaces a falsy `response.text` with
the text `'\x7b\x7d'`, which parses, so an empty response succeeds: no
error is set, a result is produced, and the history grows. -/
theorem c1_empty_response_counterexample :
    (analyzeProduct initialState (Except.ok (some "")) 7).error = none
    ∧ ((analyzeProduct initialState (Except.ok (some "")) 7).result).isSome = true
    ∧ (analyzeProduct initialState (Except.ok (some "")) 7).history.length = 1
    ∧ (analyzeProduct initialState (Except.ok (some "")) 7).image = initialState.image :=
  ⟨rfl, rfl, rfl, rfl⟩

/-- C1 (amended): for every analysis attempt whose response text is
non-empty and does not parse as valid JSON, `analyzeProduct` fails: the
single fixed localized error message is set, no result is produced, the
history is unchanged, and the current image is retained.  (An empty or
absent response text is instead replaced by `'\x7b\x7d'` and succeeds.) -/
theorem c1_invalid_json_failure (s : AppState) (text : String) (now : Nat)
    (hne : text ≠ "") (hp : parseJson text = none) :
    (analyzeProduct s (Except.ok (some text)) now).error = some analysisErrorMsg
    ∧ (analyzeProduct s (Except.ok (some text)) now).result = s.result
    ∧ (analyzeProduct s (Except.ok (some text)) now).history = s.history
    ∧ (analyzeProduct s (Except.ok (some text)) now).image = s.image := by
  simp [analyzeProduct, hne, hp]

/-- C1 witness: the amended failure theorem at a concrete non-JSON
response. -/
theorem c1_invalid_json_failure_witness :
    ("not json" ≠ "") ∧ parseJson "not json" = none
    ∧ ((analyzeProduct initialState (Except.ok (some "not json")) 3).error = some analysisErrorMsg
       ∧ (analyzeProduct initialState (Except.ok (some "not json")) 3).result = initialState.result
       ∧ (analyzeProduct initialState (Except.ok (some "not json")) 3).history = initialState.history
       ∧ (analyzeProduct initialState (Except.ok (some "not json")) 3).image = initialState.image) :=
  ⟨by decide, rfl, c1_invalid_json_failure initialState "not json" 3 (by decide) rfl⟩

/-- C2: the source registers no unmount cleanup, so tearing the component
down right after a successful camera start leaves the acquired stream's
track unstopped while the component is gone — the claimed
release-on-every-exit-path property fails on the teardown path. -/
theorem c2_teardown_leak :
    (camRun [CamEvent.startOk true 1, CamEvent.teardown]).stream = some [false]
    ∧ (camRun [CamEvent.startOk true 1, CamEvent.teardown]).mounted = false
    ∧ (camRun [CamEvent.startOk true 1, CamEvent.teardown]).showCamera = true :=
  ⟨rfl, rfl, rfl⟩

/-- C3: from a history of length at most ten, any sequence of appends keeps
the length at most ten, and each single append prepends the new entry and,
exactly when the history is full, drops the oldest (last) entry. -/
theorem c3_history_cap {α : Type} (h : List α) (hlen : h.length ≤ 10) (rs : List α) :
    (rs.foldl (fun acc r => appendHistory r acc) h).length ≤ 10
    ∧ ∀ r : α, appendHistory r h = if h.length < 10 then r :: h else r :: h.dropLast := by
  constructor
  · induction rs generalizing h with
    | nil => simpa using hlen
    | cons r rs ih =>
        simp only [List.foldl_cons]
        exact ih (appendHistory r h) (by rw [appendHistory_length]; omega)
  · intro r
    by_cases hlt : h.length < 10
    · rw [if_pos hlt]
      exact List.take_of_length_le (by simp; omega)
    · rw [if_neg hlt]
      have h10 : h.length = 10 := by omega
      show (r :: h).take 10 = r :: h.dropLast
      rw [show (10 : Nat) = 9 + 1 from rfl, List.take_succ_cons,
        List.dropLast_eq_take, h10]

/-- C3 witness: the cap theorem at a full concrete history and two
appends. -/
theorem c3_history_cap_witness :
    ([0, 1, 2, 3, 4, 5, 6, 7, 8, 9] : List Nat).length ≤ 10
    ∧ (([100, 101].foldl (fun acc r => appendHistory r acc)
          ([0, 1, 2, 3, 4, 5, 6, 7, 8, 9] : List Nat)).length ≤ 10
       ∧ ∀ r : Nat, appendHistory r [0, 1, 2, 3, 4, 5, 6, 7, 8, 9]
           = if ([0, 1, 2, 3, 4, 5, 6, 7, 8, 9] : List Nat).length < 10
             then r :: [0, 1, 2, 3, 4, 5, 6, 7, 8, 9]
             else r :: List.dropLast [0, 1, 2, 3, 4, 5, 6, 7, 8, 9]) :=
  ⟨by decide, c3_history_cap [0, 1, 2, 3, 4, 5, 6, 7, 8, 9] (by decide) [100, 101]⟩

/-- C4: a file over `5 * 1024 * 1024` bytes is rejected before any decode:
the fixed size message is set and neither the current image nor the
displayed result changes, and no file read starts. -/
theorem c4_oversized_rejected (s : AppState) (f : UploadFile)
    (hsize : f.size > 5 * 1024 * 1024) :
    handleFileUpload s (some f) = ({ s with error := some fileSizeErrorMsg }, false)
    ∧ (handleFileUpload s (some f)).1.image = s.image
    ∧ (handleFileUpload s (some f)).1.result = s.result
    ∧ (handleFileUpload s (some f)).2 = false := by
  simp [handleFileUpload, hsize]

/-- C4 witness: the rejection theorem at a file one byte over the limit. -/
theorem c4_oversized_rejected_witness :
    (UploadFile.mk (5 * 1024 * 1024 + 1) "d").size > 5 * 1024 * 1024
    ∧ (handleFileUpload initialState (some (UploadFile.mk (5 * 1024 * 1024 + 1) "d"))
        = ({ initialState with error := some fileSizeErrorMsg }, false)
       ∧ (handleFileUpload initialState (some (UploadFile.mk (5 * 1024 * 1024 + 1) "d"))).1.image
           = initialState.image
       ∧ (handleFileUpload initialState (some (UploadFile.mk (5 * 1024 * 1024 + 1) "d"))).1.result
           = initialState.result
       ∧ (handleFileUpload initialState (some (UploadFile.mk (5 * 1024 * 1024 + 1) "d"))).2
           = false) :=
  ⟨by decide, c4_oversized_rejected initialState (UploadFile.mk (5 * 1024 * 1024 + 1) "d")
      (by decide)⟩

/-- C5: on every successful analysis the stored result carries the local
clock value in its `timestamp` field — whatever the parsed response held
there is overwritten — and that same object is what gets prepended to the
history. -/
theorem c5_timestamp_client (s : AppState) (text : String) (j : Json) (now : Nat)
    (hne : text ≠ "") (hp : parseJson text = some j) :
    (analyzeProduct s (Except.ok (some text)) now).result = some (resultWithMeta j now)
    ∧ getField (resultWithMeta j now) "timestamp" = some (Json.num (now : Rat))
    ∧ (analyzeProduct s (Except.ok (some text)) now).history
        = appendHistory (resultWithMeta j now) s.history := by
  refine ⟨?_, ?_, ?_⟩ <;>
    simp [analyzeProduct, hne, hp, resultWithMeta, getField, lookupField_setField]

/-- C5 witness: the timestamp theorem at a response whose object already
carries a `timestamp` field, which the client value overrides. -/
theorem c5_timestamp_client_witness :
    ("\x7b\"timestamp\":\"x\"\x7d" ≠ "")
    ∧ parseJson "\x7b\"timestamp\":\"x\"\x7d"
        = some (Json.obj [("timestamp", Json.str "x")])
    ∧ ((analyzeProduct initialState (Except.ok (some "\x7b\"timestamp\":\"x\"\x7d")) 99).result
         = some (resultWithMeta (Json.obj [("timestamp", Json.str "x")]) 99)
       ∧ getField (resultWithMeta (Json.obj [("timestamp", Json.str "x")]) 99) "timestamp"
           = some (Json.num ((99 : Nat) : Rat))
       ∧ (analyzeProduct initialState (Except.ok (some "\x7b\"timestamp\":\"x\"\x7d")) 99).history
           = appendHistory (resultWithMeta (Json.obj [("timestamp", Json.str "x")]) 99)
               initialState.history) :=
  ⟨by decide, rfl,
    c5_timestamp_client initialState "\x7b\"timestamp\":\"x\"\x7d"
      (Json.obj [("timestamp", Json.str "x")]) 99 (by decide) rfl⟩

/-- C6: deleting a valid position removes exactly that entry — the result
is the prefix before it followed by the suffix after it, one shorter than
before. -/
theorem c6_delete_at_index {α : Type} (l : List α) (i : Nat) (hi : i < l.length) :
    deleteHistoryItem (i : Int) l = l.take i ++ l.drop (i + 1)
    ∧ (deleteHistoryItem (i : Int) l).length = l.length - 1 := by
  refine ⟨deleteHistoryItem_eq l i, ?_⟩
  rw [deleteHistoryItem_eq l i]
  simp only [List.length_append, List.length_take, List.length_drop]
  omega

/-- C6 witness: deletion at position one of a three-entry history. -/
theorem c6_delete_at_index_witness :
    (1 : Nat) < ([10, 20, 30] : List Nat).length
    ∧ (deleteHistoryItem ((1 : Nat) : Int) [10, 20, 30]
         = ([10, 20, 30] : List Nat).take 1 ++ ([10, 20, 30] : List Nat).drop 2
       ∧ (deleteHistoryItem ((1 : Nat) : Int) ([10, 20, 30] : List Nat)).length
           = ([10, 20, 30] : List Nat).length - 1) :=
  ⟨by decide, c6_delete_at_index [10, 20, 30] 1 (by decide)⟩

/-- C7: selecting a rendered history entry displays it as the current
result and leaves the history, the analyzer-invocation count, and the
error state untouched. -/
theorem c7_select_no_mutation (s : AppState) (idx : Nat) (item : Json)
    (h : s.history.get? idx = some item) :
    (selectHistoryItem s idx).result = some item
    ∧ (selectHistoryItem s idx).history = s.history
    ∧ (selectHistoryItem s idx).analyzerCalls = s.analyzerCalls
    ∧ (selectHistoryItem s idx).error = s.error := by
  have h' : s.history[idx]? = some item := by
    simpa [List.get?_eq_getElem?] using h
  simp [selectHistoryItem, h']

/-- C7 witness: selecting the sole entry of a one-entry history. -/
theorem c7_select_no_mutation_witness :
    ({ initialState with history := [Json.null] } : AppState).history.get? 0 = some Json.null
    ∧ ((selectHistoryItem { initialState with history := [Json.null] } 0).result = some Json.null
       ∧ (selectHistoryItem { initialState with history := [Json.null] } 0).history
           = ({ initialState with history := [Json.null] } : AppState).history
       ∧ (selectHistoryItem { initialState with history := [Json.null] } 0).analyzerCalls
           = ({ initialState with history := [Json.null] } : AppState).analyzerCalls
       ∧ (selectHistoryItem { initialState with history := [Json.null] } 0).error
           = ({ initialState with history := [Json.null] } : AppState).error) :=
  ⟨rfl, c7_select_no_mutation { initialState with history := [Json.null] } 0 Json.null rfl⟩

/-- C8: with an absent or unparsable persisted snapshot, the mounted
component starts with an empty history and no user-facing error; every
failed parse attempt (a present, non-empty, invalid snapshot) is logged
once via `console.error`. -/
theorem c8_load_failure_empty (saved : Option String)
    (h : saved = none ∨ ∃ s, saved = some s ∧ parseJson s = none) :
    (mountApp saved).history = [] ∧ (mountApp saved).error = none
    ∧ ∀ s, saved = some s → s ≠ "" → (mountApp saved).consoleErrors = 1 := by
  rcases h with h | ⟨s, rfl, hp⟩
  · subst h
    refine ⟨rfl, rfl, ?_⟩
    intro s hs
    cases hs
  · by_cases hs : s = ""
    · subst hs
      refine ⟨rfl, rfl, ?_⟩
      intro s' hs' hne
      cases hs'
      exact absurd rfl hne
    · refine ⟨?_, rfl, ?_⟩
      · simp [mountApp, loadHistory, hs, hp]
      · intro s' hs' _
        cases hs'
        simp [mountApp, loadHistory, hs, hp, initialState]

/-- C8 witness: mounting over a stored snapshot that is not valid JSON. -/
theorem c8_load_failure_empty_witness :
    (some "oops" = (none : Option String)
      ∨ ∃ s, some "oops" = some s ∧ parseJson s = none)
    ∧ ((mountApp (some "oops")).history = [] ∧ (mountApp (some "oops")).error = none
       ∧ ∀ s, some "oops" = some s → s ≠ "" → (mountApp (some "oops")).consoleErrors = 1) :=
  ⟨Or.inr ⟨"oops", rfl, rfl⟩, c8_load_failure_empty (some "oops") (Or.inr ⟨"oops", rfl, rfl⟩)⟩

/-- C9: a persisted snapshot that parses as an array is restored verbatim —
no cap is applied on load, so more than ten entries stay in memory — and
the next append truncates the history back to ten. -/
theorem c9_load_uncapped (s : String) (l : List Json) (r : Json)
    (hp : parseJson s = some (Json.arr l)) (hlen : 10 < l.length) :
    (mountApp (some s)).history = l
    ∧ 10 < (mountApp (some s)).history.length
    ∧ (appendHistory r (mountApp (some s)).history).length = 10 := by
  have hs : s ≠ "" := by
    intro h
    subst h
    have hnone : parseJson "" = none := rfl
    rw [hnone] at hp
    cases hp
  have hh : (mountApp (some s)).history = l := by
    simp [mountApp, loadHistory, hs, hp, jsonToHistory]
  refine ⟨hh, ?_, ?_⟩
  · rw [hh]; exact hlen
  · rw [hh, appendHistory_length]; omega

/-- C9 witness: an eleven-entry stored snapshot survives the load intact
and is truncated only by the following append. -/
theorem c9_load_uncapped_witness :
    parseJson "[null,null,null,null,null,null,null,null,null,null,null]"
      = some (Json.arr [Json.null, Json.null, Json.null, Json.null, Json.null, Json.null,
          Json.null, Json.null, Json.null, Json.null, Json.null])
    ∧ 10 < ([Json.null, Json.null, Json.null, Json.null, Json.null, Json.null,
          Json.null, Json.null, Json.null, Json.null, Json.null] : List Json).length
    ∧ ((mountApp (some "[null,null,null,null,null,null,null,null,null,null,null]")).history
         = [Json.null, Json.null, Json.null, Json.null, Json.null, Json.null,
            Json.null, Json.null, Json.null, Json.null, Json.null]
       ∧ 10 < (mountApp
            (some "[null,null,null,null,null,null,null,null,null,null,null]")).history.length
       ∧ (appendHistory Json.null (mountApp
            (some "[null,null,null,null,null,null,null,null,null,null,null]")).history).length
           = 10) :=
  ⟨rfl, by decide,
    c9_load_uncapped "[null,null,null,null,null,null,null,null,null,null,null]"
      [Json.null, Json.null, Json.null, Json.null, Json.null, Json.null,
       Json.null, Json.null, Json.null, Json.null, Json.null] Json.null rfl (by decide)⟩

/-- C10: deleting at any index outside the valid range — negative or at
least the length — leaves the history exactly as it was. -/
theorem c10_delete_out_of_range {α : Type} (l : List α) (index : Int)
    (h : index < 0 ∨ (l.length : Int) ≤ index) :
    deleteHistoryItem index l = l := by
  rcases h with h | h
  · exact deleteAux_lt l 0 index (by omega)
  · have h0 : (0 : Int) ≤ index := le_trans (by positivity) h
    obtain ⟨d, rfl⟩ : ∃ d : Nat, index = (d : Int) :=
      ⟨index.toNat, (Int.toNat_of_nonneg h0).symm⟩
    have hd : l.length ≤ d := by exact_mod_cast h
    rw [deleteHistoryItem_eq l d, List.take_of_length_le hd,
      List.drop_eq_nil_of_le (by omega), List.append_nil]

/-- C10 witness: deleting at a negative index of a singleton history. -/
theorem c10_delete_out_of_range_witness :
    ((-1 : Int) < 0 ∨ (([7] : List Nat).length : Int) ≤ (-1 : Int))
    ∧ deleteHistoryItem (-1 : Int) ([7] : List Nat) = [7] :=
  ⟨Or.inl (by decide), c10_delete_out_of_range [7] (-1) (Or.inl (by decide))⟩
